import Mathlib

/-!
Verification development for the "The 1s Vlog." browser video editor.

The compositing/export core of the repository lives in several near-duplicate
React components (`src/src/components/VideoPreview.tsx` and the unnamed
variants `part_000` .. `part_002`).  The definitions below are shallow
embeddings of the arithmetic and control flow of that code: JavaScript
numbers are modelled as exact rationals (`ℚ`), fallible browser/encoder
calls are modelled by explicit success flags, and React state updates are
modelled by explicit state records.
-/

namespace OneSecVlog

/-- The six title overlay styles, from `TextOverlayStyle` in the shared
`types` module (`part_005`). -/
inductive TextOverlayStyle
  | none
  | simple
  | minimal
  | camcorder
  | cinematic
  | magazine
deriving DecidableEq, Repr

/-- A clip descriptor, from `VideoClip` in the shared `types` module
(`part_005`).  The `File` handle is modelled by its name. -/
structure VideoClip where
  id : String
  file : String
  thumbnail : String
  duration : ℚ
  startTime : ℚ
  clipDuration : ℚ
deriving DecidableEq, Repr

/-- Title settings, from `TitleSettings` in the shared `types` module. -/
structure TitleSettings where
  text : String
  style : TextOverlayStyle
deriving DecidableEq, Repr

/-- The total sequence duration
`clips.reduce((acc, clip) => acc + clip.clipDuration, 0)` — the total
sequence duration, computed identically in every component variant. -/
def totalDuration (clips : List VideoClip) : ℚ :=
  clips.foldl (fun acc clip => acc + clip.clipDuration) 0

/-- The active-clip selection loop of `renderFrame` in the preview-only
variant (`src/src/components/VideoPreview.tsx`, first component, lines
235-246, and `part_001` lines 220-231): walk the clips accumulating
durations; the first clip whose half-open interval
`[timeAccumulator, timeAccumulator + clipDuration)` contains `time` is
active, with local offset `time - timeAccumulator`. -/
def resolveActiveClip (time : ℚ) : List VideoClip → ℚ → Option (VideoClip × ℚ)
  | [], _ => Option.none
  | clip :: rest, acc =>
    if acc ≤ time ∧ time < acc + clip.clipDuration then
      some (clip, time - acc)
    else
      resolveActiveClip time rest (acc + clip.clipDuration)

/-- The active-clip selection loop of `renderFrame` in the export-capable
variants (`part_000` lines 198-205, `part_002` lines 207-214, and the
second component of `src/src/components/VideoPreview.tsx` lines 785-792):
the matching condition additionally accepts `time === totalDuration`, and
the local offset is clamped to `clipDuration - 0.01`.  `td` is the
`totalDuration` value captured by the closure. -/
def resolveActiveClipClamped (td time : ℚ) :
    List VideoClip → ℚ → Option (VideoClip × ℚ)
  | [], _ => Option.none
  | clip :: rest, acc =>
    if acc ≤ time ∧ (time < acc + clip.clipDuration ∨ time = td) then
      some (clip, min (time - acc) (clip.clipDuration - 1/100))
    else
      resolveActiveClipClamped td time rest (acc + clip.clipDuration)

/-- Cumulative duration of the first `i` clips (the value of
`timeAccumulator` when the selection loop reaches clip `i`). -/
def cumDur (clips : List VideoClip) (i : ℕ) : ℚ :=
  ((clips.take i).map (fun c => c.clipDuration)).sum

theorem cumDur_zero (clips : List VideoClip) : cumDur clips 0 = 0 := rfl

theorem cumDur_succ_cons (c : VideoClip) (rest : List VideoClip) (j : ℕ) :
    cumDur (c :: rest) (j + 1) = c.clipDuration + cumDur rest j := by
  simp [cumDur]

theorem totalDuration_eq_sum (clips : List VideoClip) :
    totalDuration clips = (clips.map (fun c => c.clipDuration)).sum := by
  have h : ∀ (l : List VideoClip) (a : ℚ),
      l.foldl (fun acc clip => acc + clip.clipDuration) a
        = a + (l.map (fun c => c.clipDuration)).sum := by
    intro l
    induction l with
    | nil => intro a; simp
    | cons c rest ih =>
      intro a
      simp [List.foldl, ih, add_assoc]
  simpa [totalDuration] using h clips 0

theorem totalDuration_nonneg (clips : List VideoClip)
    (h : ∀ c ∈ clips, 0 ≤ c.clipDuration) : 0 ≤ totalDuration clips := by
  rw [totalDuration_eq_sum]
  apply List.sum_nonneg
  intro x hx
  rcases List.mem_map.mp hx with ⟨c, hc, rfl⟩
  exact h c hc

theorem totalDuration_cons (c : VideoClip) (rest : List VideoClip) :
    totalDuration (c :: rest) = c.clipDuration + totalDuration rest := by
  rw [totalDuration_eq_sum, totalDuration_eq_sum]
  simp

theorem cumDur_succ_get (clips : List VideoClip) (i : ℕ) (hi : i < clips.length) :
    cumDur clips (i + 1) = cumDur clips i + (clips.get ⟨i, hi⟩).clipDuration := by
  induction clips generalizing i with
  | nil => cases hi
  | cons c rest ih =>
    cases i with
    | zero => simp [cumDur_succ_cons, cumDur]
    | succ k =>
      have hk : k < rest.length := Nat.lt_of_succ_lt_succ hi
      rw [cumDur_succ_cons, cumDur_succ_cons, ih k hk]
      simp [add_assoc]

/-- The selection loop of `resolveActiveClip`, characterised: under
non-negative durations it finds the first clip whose cumulative interval
contains `time`, and the offset is `time` minus the accumulated duration. -/
theorem resolveActiveClip_spec (time : ℚ) (clips : List VideoClip) :
    ∀ acc : ℚ,
      (∀ c ∈ clips, 0 ≤ c.clipDuration) →
      acc ≤ time →
      time < acc + totalDuration clips →
      ∃ i, ∃ hi : i < clips.length,
        resolveActiveClip time clips acc
            = some (clips.get ⟨i, hi⟩, time - (acc + cumDur clips i)) ∧
        acc + cumDur clips i ≤ time ∧
        time < acc + cumDur clips (i + 1) ∧
        (∀ j, j < i →
          ¬ (acc + cumDur clips j ≤ time ∧ time < acc + cumDur clips (j + 1))) := by
  induction clips with
  | nil =>
    intro acc _ hacc hlt
    rw [totalDuration] at hlt
    simp at hlt
    exact absurd hlt (not_lt.mpr hacc)
  | cons c rest ih =>
    intro acc hnn hacc hlt
    by_cases hc : time < acc + c.clipDuration
    · refine ⟨0, Nat.succ_pos _, ?_, ?_, ?_, ?_⟩
      · simp [resolveActiveClip, hacc, hc, cumDur_zero]
      · simpa [cumDur_zero] using hacc
      · simpa [cumDur_succ_cons, cumDur_zero] using hc
      · intro j hj; cases hj
    · have hge : acc + c.clipDuration ≤ time := le_of_not_lt hc
      have hnn' : ∀ x ∈ rest, 0 ≤ x.clipDuration :=
        fun x hx => hnn x (List.mem_cons_of_mem _ hx)
      have hlt' : time < (acc + c.clipDuration) + totalDuration rest := by
        rw [totalDuration_cons] at hlt; linarith
      rcases ih (acc + c.clipDuration) hnn' hge hlt' with ⟨i, hi, heq, hlo, hhi, hfirst⟩
      refine ⟨i + 1, Nat.succ_lt_succ hi, ?_, ?_, ?_, ?_⟩
      · have hcond : ¬ (acc ≤ time ∧ time < acc + c.clipDuration) :=
          fun h => hc h.2
        rw [resolveActiveClip, if_neg hcond, heq]
        have : (c :: rest).get ⟨i + 1, Nat.succ_lt_succ hi⟩ = rest.get ⟨i, hi⟩ := rfl
        rw [this, cumDur_succ_cons]
        ring_nf
      · rw [cumDur_succ_cons]; linarith
      · rw [cumDur_succ_cons]; linarith
      · intro j hj
        cases j with
        | zero =>
          intro hmem
          simp only [cumDur_succ_cons, cumDur_zero] at hmem
          have : time < acc + c.clipDuration := by
            have := hmem.2; linarith
          exact hc this
        | succ k =>
          have hk : k < i := Nat.lt_of_succ_lt_succ hj
          intro hmem
          apply hfirst k hk
          rw [cumDur_succ_cons, cumDur_succ_cons] at hmem
          constructor
          · linarith [hmem.1]
          · linarith [hmem.2]

/-- For `time ≠ totalDuration`, the clamped selection loop of the export
variants agrees with the unclamped one on the clip it selects, and only
clamps the offset. -/
theorem resolveActiveClipClamped_eq (td time : ℚ) (hne : time ≠ td) :
    ∀ (clips : List VideoClip) (acc : ℚ),
      resolveActiveClipClamped td time clips acc
        = (resolveActiveClip time clips acc).map
            (fun p => (p.1, min p.2 (p.1.clipDuration - 1/100))) := by
  intro clips
  induction clips with
  | nil => intro acc; rfl
  | cons c rest ih =>
    intro acc
    by_cases hcond : acc ≤ time ∧ time < acc + c.clipDuration
    · rw [resolveActiveClipClamped, if_pos ⟨hcond.1, Or.inl hcond.2⟩,
        resolveActiveClip, if_pos hcond]
      rfl
    · have hcond' : ¬ (acc ≤ time ∧ (time < acc + c.clipDuration ∨ time = td)) := by
        rintro ⟨h1, h2 | h2⟩
        · exact hcond ⟨h1, h2⟩
        · exact hne h2
      rw [resolveActiveClipClamped, if_neg hcond', resolveActiveClip, if_neg hcond]
      exact ih (acc + c.clipDuration)

/-! Concrete clips used by witnesses and counterexamples. -/

def clipOne : VideoClip :=
  { id := "c1", file := "one.mp4", thumbnail := "", duration := 5,
    startTime := 0, clipDuration := 1 }

def clipTwo : VideoClip :=
  { id := "c2", file := "two.mp4", thumbnail := "", duration := 5,
    startTime := 0, clipDuration := 1 }

def clipTiny : VideoClip :=
  { id := "tiny", file := "tiny.mp4", thumbnail := "", duration := 5,
    startTime := 0, clipDuration := 1/200 }

/-- Claim C3 (amended): for every non-empty sequence with non-negative
durations and every `time` in `[0, totalDuration)`, both selection loops
select exactly one active clip — the first clip whose cumulative-duration
interval contains `time`, never a zero-duration clip — and the offset of
the unclamped loop satisfies `0 ≤ offset < clipDuration` unconditionally.
For the clamped loop of the export variants the same bounds hold under the
amendment that every `clipDuration` is `0` or at least `ε = 0.01`: a
positive duration below `ε` makes the clamp `min(time − acc, d − 0.01)`
negative. -/
theorem timeline_resolver_exactly_one (clips : List VideoClip) (time : ℚ)
    (_hne : clips ≠ [])
    (hnn : ∀ c ∈ clips, 0 ≤ c.clipDuration)
    (h0 : 0 ≤ time) (hlt : time < totalDuration clips)
    (heps : ∀ c ∈ clips, c.clipDuration = 0 ∨ 1/100 ≤ c.clipDuration) :
    ∃ i, ∃ hi : i < clips.length,
      resolveActiveClip time clips 0
          = some (clips.get ⟨i, hi⟩, time - cumDur clips i) ∧
      cumDur clips i ≤ time ∧ time < cumDur clips (i + 1) ∧
      (∀ j, j < i → ¬ (cumDur clips j ≤ time ∧ time < cumDur clips (j + 1))) ∧
      0 < (clips.get ⟨i, hi⟩).clipDuration ∧
      0 ≤ time - cumDur clips i ∧
      time - cumDur clips i < (clips.get ⟨i, hi⟩).clipDuration ∧
      resolveActiveClipClamped (totalDuration clips) time clips 0
          = some (clips.get ⟨i, hi⟩,
              min (time - cumDur clips i)
                ((clips.get ⟨i, hi⟩).clipDuration - 1/100)) ∧
      0 ≤ min (time - cumDur clips i)
            ((clips.get ⟨i, hi⟩).clipDuration - 1/100) ∧
      min (time - cumDur clips i) ((clips.get ⟨i, hi⟩).clipDuration - 1/100)
          < (clips.get ⟨i, hi⟩).clipDuration := by
  have hlt0 : time < 0 + totalDuration clips := by simpa using hlt
  rcases resolveActiveClip_spec time clips 0 hnn h0 hlt0 with
    ⟨i, hi, heq, hlo, hhi, hfirst⟩
  simp only [zero_add] at heq hlo hhi hfirst
  have hsucc := cumDur_succ_get clips i hi
  have hofflt : time - cumDur clips i < (clips.get ⟨i, hi⟩).clipDuration := by
    rw [hsucc] at hhi; linarith
  have hoffge : 0 ≤ time - cumDur clips i := by linarith
  have hdpos : 0 < (clips.get ⟨i, hi⟩).clipDuration := by linarith
  have hdeps : 1/100 ≤ (clips.get ⟨i, hi⟩).clipDuration := by
    rcases heps _ (List.get_mem clips i hi) with h | h
    · exact absurd hdpos (by rw [h]; exact lt_irrefl 0)
    · exact h
  have hneq : time ≠ totalDuration clips := ne_of_lt hlt
  have hclamped : resolveActiveClipClamped (totalDuration clips) time clips 0
      = some (clips.get ⟨i, hi⟩,
          min (time - cumDur clips i)
            ((clips.get ⟨i, hi⟩).clipDuration - 1/100)) := by
    rw [resolveActiveClipClamped_eq (totalDuration clips) time hneq clips 0, heq]
    rfl
  refine ⟨i, hi, heq, hlo, hhi, hfirst, hdpos, hoffge, hofflt, hclamped, ?_, ?_⟩
  · exact le_min hoffge (by linarith)
  · exact lt_of_le_of_lt (min_le_right _ _) (by linarith)

/-- Witness for `timeline_resolver_exactly_one` at the sequence
`[clipOne, clipTwo]` (one second each) and `time = 3/2`. -/
theorem timeline_resolver_exactly_one_witness :
    ([clipOne, clipTwo] ≠ ([] : List VideoClip)) ∧
    (0 : ℚ) ≤ 3/2 ∧ (3/2 : ℚ) < totalDuration [clipOne, clipTwo] ∧
    (∃ i, ∃ hi : i < [clipOne, clipTwo].length,
      resolveActiveClip (3/2) [clipOne, clipTwo] 0
          = some ([clipOne, clipTwo].get ⟨i, hi⟩,
              3/2 - cumDur [clipOne, clipTwo] i) ∧
      cumDur [clipOne, clipTwo] i ≤ 3/2 ∧
      (3/2 : ℚ) < cumDur [clipOne, clipTwo] (i + 1) ∧
      (∀ j, j < i → ¬ (cumDur [clipOne, clipTwo] j ≤ 3/2 ∧
          (3/2 : ℚ) < cumDur [clipOne, clipTwo] (j + 1))) ∧
      0 < ([clipOne, clipTwo].get ⟨i, hi⟩).clipDuration ∧
      0 ≤ 3/2 - cumDur [clipOne, clipTwo] i ∧
      3/2 - cumDur [clipOne, clipTwo] i
          < ([clipOne, clipTwo].get ⟨i, hi⟩).clipDuration ∧
      resolveActiveClipClamped (totalDuration [clipOne, clipTwo]) (3/2)
            [clipOne, clipTwo] 0
          = some ([clipOne, clipTwo].get ⟨i, hi⟩,
              min (3/2 - cumDur [clipOne, clipTwo] i)
                (([clipOne, clipTwo].get ⟨i, hi⟩).clipDuration - 1/100)) ∧
      0 ≤ min (3/2 - cumDur [clipOne, clipTwo] i)
            (([clipOne, clipTwo].get ⟨i, hi⟩).clipDuration - 1/100) ∧
      min (3/2 - cumDur [clipOne, clipTwo] i)
            (([clipOne, clipTwo].get ⟨i, hi⟩).clipDuration - 1/100)
          < ([clipOne, clipTwo].get ⟨i, hi⟩).clipDuration) :=
  ⟨by simp, by norm_num, by norm_num [totalDuration, clipOne, clipTwo],
    timeline_resolver_exactly_one [clipOne, clipTwo] (3/2) (by simp)
      (by norm_num [List.forall_mem_cons, clipOne, clipTwo]) (by norm_num)
      (by norm_num [totalDuration, clipOne, clipTwo])
      (by norm_num [List.forall_mem_cons, clipOne, clipTwo])⟩

/-- Claim C3 counterexample: a clip with positive duration `1/200 < ε` and
`time = 0 ∈ [0, totalDuration)` satisfies every hypothesis of the claim
(non-empty sequence, non-negative durations), yet the clamped selection
loop of the export variants computes the negative local offset `−1/200`,
refuting `0 ≤ localOffset`. -/
theorem timeline_resolver_negative_offset :
    (∀ c ∈ [clipTiny], 0 ≤ c.clipDuration) ∧
    (0 : ℚ) ≤ 0 ∧ (0 : ℚ) < totalDuration [clipTiny] ∧
    resolveActiveClipClamped (totalDuration [clipTiny]) 0 [clipTiny] 0
      = some (clipTiny, -(1/200)) ∧
    (-(1/200) : ℚ) < 0 := by
  refine ⟨?_, le_refl 0, ?_, ?_, by norm_num⟩
  · norm_num [List.forall_mem_cons, clipTiny]
  · norm_num [totalDuration, clipTiny]
  · norm_num [resolveActiveClipClamped, totalDuration, clipTiny, min_def]

/-- Claim C1 (amended): resolving the global time exactly equal to
`totalDuration` on a non-empty sequence returns the FIRST clip of the
sequence (the `time === totalDuration` disjunct already matches at the
first loop iteration), with local offset equal to that first clip's
`clipDuration − ε` (`ε = 0.01`). -/
theorem resolver_at_totalDuration (c : VideoClip) (rest : List VideoClip)
    (hnn : ∀ x ∈ c :: rest, 0 ≤ x.clipDuration) :
    resolveActiveClipClamped (totalDuration (c :: rest))
        (totalDuration (c :: rest)) (c :: rest) 0
      = some (c, c.clipDuration - 1/100) := by
  have htd : 0 ≤ totalDuration (c :: rest) := totalDuration_nonneg _ hnn
  have hrest : 0 ≤ totalDuration rest :=
    totalDuration_nonneg rest (fun x hx => hnn x (List.mem_cons_of_mem _ hx))
  have hd : c.clipDuration ≤ totalDuration (c :: rest) := by
    rw [totalDuration_cons]; linarith
  rw [resolveActiveClipClamped, if_pos ⟨htd, Or.inr rfl⟩]
  have : min (totalDuration (c :: rest) - 0) (c.clipDuration - 1/100)
      = c.clipDuration - 1/100 := by
    rw [sub_zero]; exact min_eq_right (by linarith)
  rw [this]

/-- Witness for `resolver_at_totalDuration` on the single-clip sequence
`[clipOne]`. -/
theorem resolver_at_totalDuration_witness :
    (∀ x ∈ clipOne :: [], 0 ≤ x.clipDuration) ∧
    resolveActiveClipClamped (totalDuration (clipOne :: []))
        (totalDuration (clipOne :: [])) (clipOne :: []) 0
      = some (clipOne, clipOne.clipDuration - 1/100) :=
  ⟨by norm_num [List.forall_mem_cons, clipOne],
    resolver_at_totalDuration clipOne []
      (by norm_num [List.forall_mem_cons, clipOne])⟩

/-- Claim C1 counterexample: on the two-clip sequence
`[clipOne, clipTwo]` (total duration 2), resolving `time = 2` returns the
FIRST clip `clipOne` — not the last clip `clipTwo` as the claim states. -/
theorem resolver_at_totalDuration_first_not_last :
    resolveActiveClipClamped (totalDuration [clipOne, clipTwo])
        (totalDuration [clipOne, clipTwo]) [clipOne, clipTwo] 0
      = some (clipOne, 99/100) ∧
    [clipOne, clipTwo].getLastD clipOne = clipTwo ∧
    clipOne ≠ clipTwo := by
  refine ⟨?_, rfl, by decide⟩
  norm_num [resolveActiveClipClamped, totalDuration, clipOne, clipTwo, min_def]

/-!
Overlay renderer.

`drawText` (first component of `src/src/components/VideoPreview.tsx`,
lines 132-215, identical in `part_001` lines 107-198) and
`drawTextOnCanvas` (`part_000` lines 579-646, `part_002` lines 111-178)
are embedded as pure functions from their inputs to the list of Canvas2D
commands they issue.  A wall-clock reading is passed explicitly: `drawText`
always calls `new Date()`, while `drawTextOnCanvas` uses its optional
`fixedTime` argument and falls back to `new Date()`.
-/

/-- A calendar date-time, the model of a JavaScript `Date` value. -/
structure DateTime where
  year : ℕ
  month : ℕ
  day : ℕ
  hour : ℕ
  minute : ℕ
  second : ℕ
deriving DecidableEq, Repr

/-- Two-digit zero padding, as produced by the `2-digit` option of the
ECMA-402 formatters. -/
def pad2 (n : ℕ) : String :=
  if n < 10 then "0" ++ toString n else toString n

/-- Model of `Date.prototype.toLocaleTimeString` with locale `en-US` and
options `hour12:false, hour/minute/second:2-digit`: `HH:MM:SS`. -/
def toLocaleTimeStringEnUS (d : DateTime) : String :=
  pad2 d.hour ++ ":" ++ pad2 d.minute ++ ":" ++ pad2 d.second

/-- English short month names used by the `month:'short'` option. -/
def monthShortEnUS : ℕ → String
  | 1 => "Jan" | 2 => "Feb" | 3 => "Mar" | 4 => "Apr"
  | 5 => "May" | 6 => "Jun" | 7 => "Jul" | 8 => "Aug"
  | 9 => "Sep" | 10 => "Oct" | 11 => "Nov" | 12 => "Dec"
  | _ => ""

/-- Model of `Date.prototype.toLocaleDateString` with locale `en-US` and
options `month:'short', day:'2-digit', year:'numeric'`: `Mon DD, YYYY`. -/
def toLocaleDateStringEnUS (d : DateTime) : String :=
  monthShortEnUS d.month ++ " " ++ pad2 d.day ++ ", " ++ toString d.year

/-- Model of `String.prototype.toUpperCase` (ASCII range, sufficient for
the strings this code produces). -/
def jsToUpperCase (s : String) : String :=
  String.mk (s.data.map Char.toUpper)

/-- One Canvas2D command issued by the overlay renderer.  Assignments to
context attributes are recorded as commands as well, so the empty list
means the renderer touched the context in no way at all.  Font assignments
record the computed pixel size and the remaining literal text of the CSS
font string (with the size spliced out at the `_`). -/
inductive DrawOp
  | save
  | restore
  | setTextAlign (a : String)
  | setTextBaseline (b : String)
  | setFont (size : ℚ) (spec : String)
  | setLetterSpacing (s : String)
  | setShadowColor (c : String)
  | setShadowBlur (b : ℚ)
  | setFillStyle (c : String)
  | setStrokeStyle (c : String)
  | setLineWidth (w : ℚ)
  | fillText (t : String) (x y : ℚ)
  | fillRect (x y w h : ℚ)
  | beginPath
  | moveTo (x y : ℚ)
  | lineTo (x y : ℚ)
  | stroke
deriving DecidableEq, Repr

/-- A drawing surface, modelled by the full history of commands applied to
it; two surfaces are byte-for-byte equal exactly when the histories are. -/
structure Surface where
  committed : List DrawOp
deriving DecidableEq, Repr

def applyOp (s : Surface) (op : DrawOp) : Surface :=
  { committed := s.committed ++ [op] }

def applyOps (s : Surface) (ops : List DrawOp) : Surface :=
  ops.foldl applyOp s

/-- Function `drawText` of the first `VideoPreview.tsx` component (lines 132-215):
`if (!text || style === "none") return;` then `ctx.save()`, one styled
layout per case, `ctx.restore()`.  `now` is the `new Date()` reading of the
camcorder branch. -/
def drawText (settings : TitleSettings) (width height : ℚ) (now : DateTime) :
    List DrawOp :=
  if settings.text = "" ∨ settings.style = TextOverlayStyle.none then []
  else
    let centerX := width / 2
    let centerY := height / 2
    let styleOps : List DrawOp :=
      match settings.style with
      | TextOverlayStyle.none => []
      | TextOverlayStyle.simple =>
        [DrawOp.setTextAlign "center", DrawOp.setTextBaseline "middle",
         DrawOp.setFont (height * (8/100)) "bold _px Inter, sans-serif",
         DrawOp.setShadowColor "rgba(0,0,0,0.6)", DrawOp.setShadowBlur 12,
         DrawOp.setFillStyle "white",
         DrawOp.fillText settings.text centerX centerY]
      | TextOverlayStyle.minimal =>
        [DrawOp.setTextAlign "center", DrawOp.setTextBaseline "bottom",
         DrawOp.setFont (height * (45/1000)) "300 _px Inter, sans-serif",
         DrawOp.setLetterSpacing "6px",
         DrawOp.setShadowColor "rgba(0,0,0,0.4)", DrawOp.setShadowBlur 4,
         DrawOp.setFillStyle "white",
         DrawOp.fillText (jsToUpperCase settings.text) centerX
           (height * (92/100))]
      | TextOverlayStyle.camcorder =>
        [DrawOp.setTextAlign "left", DrawOp.setTextBaseline "bottom",
         DrawOp.setFont (height * (4/100)) "_px JetBrains Mono, monospace",
         DrawOp.setFillStyle "#FFD700",
         DrawOp.setShadowColor "rgba(0,0,0,0.8)", DrawOp.setShadowBlur 2,
         DrawOp.fillText ("REC  " ++ toLocaleTimeStringEnUS now)
           (width * (6/100)) (height * (88/100)),
         DrawOp.fillText (jsToUpperCase (toLocaleDateStringEnUS now))
           (width * (6/100)) (height * (94/100)),
         DrawOp.setTextAlign "right",
         DrawOp.fillText (jsToUpperCase settings.text)
           (width * (94/100)) (height * (94/100))]
      | TextOverlayStyle.cinematic =>
        let barHeight := height * (12/100)
        [DrawOp.setFillStyle "black",
         DrawOp.fillRect 0 0 width barHeight,
         DrawOp.fillRect 0 (height - barHeight) width barHeight,
         DrawOp.setTextAlign "center", DrawOp.setTextBaseline "middle",
         DrawOp.setFont (height * (55/1000))
           "italic 500 _px Cormorant Garamond, serif",
         DrawOp.setFillStyle "rgba(255,255,255,0.9)",
         DrawOp.setLetterSpacing "6px",
         DrawOp.setShadowColor "black", DrawOp.setShadowBlur 4,
         DrawOp.fillText settings.text centerX (height - barHeight / 2)]
      | TextOverlayStyle.magazine =>
        [DrawOp.setTextAlign "center", DrawOp.setTextBaseline "middle",
         DrawOp.setFont (height * (14/100))
           "italic 700 _px Playfair Display, serif",
         DrawOp.setFillStyle "white",
         DrawOp.setShadowColor "rgba(0,0,0,0.3)", DrawOp.setShadowBlur 20,
         DrawOp.fillText settings.text centerX centerY,
         DrawOp.setFont (height * (35/1000))
           "italic 400 _px Cormorant Garamond, serif",
         DrawOp.setLetterSpacing "4px",
         DrawOp.setFillStyle "rgba(255,255,255,0.8)",
         DrawOp.fillText "Vlog Series // Vol. 01" centerX
           (centerY + height * (12/100)),
         DrawOp.setStrokeStyle "rgba(255,255,255,0.4)",
         DrawOp.setLineWidth 1,
         DrawOp.beginPath,
         DrawOp.moveTo (centerX - width * (1/10)) (centerY + height * (15/100)),
         DrawOp.lineTo (centerX + width * (1/10)) (centerY + height * (15/100)),
         DrawOp.stroke]
    DrawOp.save :: styleOps ++ [DrawOp.restore]

/-- Function `drawTextOnCanvas` of `part_000` (lines 579-646) and `part_002` (lines
111-178): the same early return, but the camcorder branch reads
`fixedTime || new Date()` and sets no shadow, and the cinematic/magazine
layouts differ slightly from `drawText`. -/
def drawTextOnCanvas (settings : TitleSettings) (width height : ℚ)
    (fixedTime : Option DateTime) (wallClock : DateTime) : List DrawOp :=
  if settings.text = "" ∨ settings.style = TextOverlayStyle.none then []
  else
    let centerX := width / 2
    let centerY := height / 2
    let styleOps : List DrawOp :=
      match settings.style with
      | TextOverlayStyle.none => []
      | TextOverlayStyle.simple =>
        [DrawOp.setTextAlign "center", DrawOp.setTextBaseline "middle",
         DrawOp.setFont (height * (8/100)) "bold _px Inter, sans-serif",
         DrawOp.setShadowColor "rgba(0,0,0,0.6)", DrawOp.setShadowBlur 12,
         DrawOp.setFillStyle "white",
         DrawOp.fillText settings.text centerX centerY]
      | TextOverlayStyle.minimal =>
        [DrawOp.setTextAlign "center", DrawOp.setTextBaseline "bottom",
         DrawOp.setFont (height * (45/1000)) "300 _px Inter, sans-serif",
         DrawOp.setLetterSpacing "6px",
         DrawOp.setFillStyle "white",
         DrawOp.fillText (jsToUpperCase settings.text) centerX
           (height * (92/100))]
      | TextOverlayStyle.camcorder =>
        let now := fixedTime.getD wallClock
        [DrawOp.setTextAlign "left", DrawOp.setTextBaseline "bottom",
         DrawOp.setFont (height * (4/100)) "_px JetBrains Mono, monospace",
         DrawOp.setFillStyle "#FFD700",
         DrawOp.fillText ("REC  " ++ toLocaleTimeStringEnUS now)
           (width * (6/100)) (height * (88/100)),
         DrawOp.fillText (jsToUpperCase (toLocaleDateStringEnUS now))
           (width * (6/100)) (height * (94/100)),
         DrawOp.setTextAlign "right",
         DrawOp.fillText (jsToUpperCase settings.text)
           (width * (94/100)) (height * (94/100))]
      | TextOverlayStyle.cinematic =>
        let barHeight := height * (12/100)
        [DrawOp.setFillStyle "black",
         DrawOp.fillRect 0 0 width barHeight,
         DrawOp.fillRect 0 (height - barHeight) width barHeight,
         DrawOp.setTextAlign "center", DrawOp.setTextBaseline "middle",
         DrawOp.setFont (height * (5/100)) "italic 500 _px Inter, serif",
         DrawOp.setFillStyle "rgba(255,255,255,0.9)",
         DrawOp.setLetterSpacing "6px",
         DrawOp.fillText settings.text centerX (height - barHeight / 2)]
      | TextOverlayStyle.magazine =>
        [DrawOp.setTextAlign "center", DrawOp.setTextBaseline "middle",
         DrawOp.setFont (height * (12/100)) "italic 700 _px serif",
         DrawOp.setFillStyle "white",
         DrawOp.setShadowColor "rgba(0,0,0,0.3)", DrawOp.setShadowBlur 8,
         DrawOp.fillText settings.text centerX centerY]
    DrawOp.save :: styleOps ++ [DrawOp.restore]

/-- The text arguments of the `fillText` commands in a command list. -/
def fillTexts (ops : List DrawOp) : List String :=
  ops.filterMap fun op =>
    match op with
    | DrawOp.fillText t _ _ => some t
    | _ => Option.none

/-- The fixed clock `2024-01-01T12:00:00` used by the determinism claim. -/
def fixedClock : DateTime :=
  { year := 2024, month := 1, day := 1, hour := 12, minute := 0, second := 0 }

/-- An arbitrary wall-clock reading, distinct from `fixedClock`. -/
def epochClock : DateTime :=
  { year := 1970, month := 1, day := 1, hour := 0, minute := 0, second := 0 }

/-- Claim C8 (confirmed): called with an empty text string, or with style
`none`, both overlay renderer variants issue no command at all — for every
style value in the enum — and leave any target surface byte-for-byte
unchanged. -/
theorem overlay_empty_no_mutation (text : String) (style : TextOverlayStyle)
    (w h : ℚ) (now wall : DateTime) (fixedTime : Option DateTime)
    (s : Surface)
    (hguard : text = "" ∨ style = TextOverlayStyle.none) :
    drawText ⟨text, style⟩ w h now = [] ∧
    drawTextOnCanvas ⟨text, style⟩ w h fixedTime wall = [] ∧
    applyOps s (drawText ⟨text, style⟩ w h now) = s ∧
    applyOps s (drawTextOnCanvas ⟨text, style⟩ w h fixedTime wall) = s := by
  have h1 : drawText ⟨text, style⟩ w h now = [] := by
    unfold drawText
    exact if_pos hguard
  have h2 : drawTextOnCanvas ⟨text, style⟩ w h fixedTime wall = [] := by
    unfold drawTextOnCanvas
    exact if_pos hguard
  exact ⟨h1, h2, by rw [h1]; rfl, by rw [h2]; rfl⟩

/-- Witness for `overlay_empty_no_mutation`: empty text with the camcorder
style, applied to a non-trivial surface. -/
theorem overlay_empty_no_mutation_witness :
    (("" : String) = "" ∨ TextOverlayStyle.camcorder = TextOverlayStyle.none) ∧
    (drawText ⟨"", TextOverlayStyle.camcorder⟩ 1280 720 epochClock = [] ∧
     drawTextOnCanvas ⟨"", TextOverlayStyle.camcorder⟩ 1280 720
        (some fixedClock) epochClock = [] ∧
     applyOps ⟨[DrawOp.save]⟩
        (drawText ⟨"", TextOverlayStyle.camcorder⟩ 1280 720 epochClock)
       = ⟨[DrawOp.save]⟩ ∧
     applyOps ⟨[DrawOp.save]⟩
        (drawTextOnCanvas ⟨"", TextOverlayStyle.camcorder⟩ 1280 720
          (some fixedClock) epochClock)
       = ⟨[DrawOp.save]⟩) :=
  ⟨Or.inl rfl,
    overlay_empty_no_mutation "" TextOverlayStyle.camcorder 1280 720
      epochClock epochClock (some fixedClock) ⟨[DrawOp.save]⟩ (Or.inl rfl)⟩

/-- Claim C9 (amended): with style camcorder and the fixed clock
`2024-01-01T12:00:00`, `drawTextOnCanvas` is deterministic — its output
does not depend on the ambient wall clock, so any two calls with identical
inputs issue identical commands — and the texts it renders are exactly the
timestamp line `"REC  12:00:00"` (with the two spaces of the source's
template literal), the date line `"JAN 01, 2024"`, and the uppercased user
text. -/
theorem camcorder_fixed_clock_deterministic (text : String) (w h : ℚ)
    (wall1 wall2 : DateTime) (htext : text ≠ "") :
    drawTextOnCanvas ⟨text, TextOverlayStyle.camcorder⟩ w h
        (some fixedClock) wall1
      = drawTextOnCanvas ⟨text, TextOverlayStyle.camcorder⟩ w h
          (some fixedClock) wall2 ∧
    fillTexts (drawTextOnCanvas ⟨text, TextOverlayStyle.camcorder⟩ w h
        (some fixedClock) wall1)
      = ["REC  12:00:00", "JAN 01, 2024", jsToUpperCase text] := by
  have hguard : ¬ ((⟨text, TextOverlayStyle.camcorder⟩ : TitleSettings).text = ""
      ∨ (⟨text, TextOverlayStyle.camcorder⟩ : TitleSettings).style
          = TextOverlayStyle.none) := by
    rintro (h | h)
    · exact htext h
    · exact TextOverlayStyle.noConfusion h
  constructor
  · unfold drawTextOnCanvas
    rw [if_neg hguard, if_neg hguard]
    simp only [Option.getD_some]
  · unfold drawTextOnCanvas
    rw [if_neg hguard]
    simp only [Option.getD_some]
    rfl

/-- Witness for `camcorder_fixed_clock_deterministic` at text `"TRIP"`,
a 1280×720 surface, and two different wall clocks. -/
theorem camcorder_fixed_clock_deterministic_witness :
    ("TRIP" : String) ≠ "" ∧
    (drawTextOnCanvas ⟨"TRIP", TextOverlayStyle.camcorder⟩ 1280 720
        (some fixedClock) epochClock
      = drawTextOnCanvas ⟨"TRIP", TextOverlayStyle.camcorder⟩ 1280 720
          (some fixedClock) fixedClock ∧
    fillTexts (drawTextOnCanvas ⟨"TRIP", TextOverlayStyle.camcorder⟩ 1280 720
        (some fixedClock) epochClock)
      = ["REC  12:00:00", "JAN 01, 2024", jsToUpperCase "TRIP"]) :=
  ⟨by decide,
    camcorder_fixed_clock_deterministic "TRIP" 1280 720 epochClock fixedClock
      (by decide)⟩

/-- Claim C9 counterexample: at the fixed clock the camcorder overlay
renders the timestamp line `"REC  12:00:00"` — the template literal
`REC  ${timeStr}` has two spaces — and not the single-space
`"REC 12:00:00"` stated by the claim. -/
theorem camcorder_timestamp_not_single_space :
    fillTexts (drawTextOnCanvas ⟨"TRIP", TextOverlayStyle.camcorder⟩ 1280 720
        (some fixedClock) epochClock)
      = ["REC  12:00:00", "JAN 01, 2024", "TRIP"] ∧
    "REC 12:00:00" ∉
      fillTexts (drawTextOnCanvas ⟨"TRIP", TextOverlayStyle.camcorder⟩ 1280 720
        (some fixedClock) epochClock) := by
  have h : fillTexts (drawTextOnCanvas ⟨"TRIP", TextOverlayStyle.camcorder⟩
      1280 720 (some fixedClock) epochClock)
      = ["REC  12:00:00", "JAN 01, 2024", "TRIP"] := by rfl
  refine ⟨h, ?_⟩
  rw [h]
  decide

/-!
Export driver.

`handleExport` of `part_000` (lines 295-361) — identical in control flow to
`handleMainAction` of the second `VideoPreview.tsx` component (lines
908-972) and of `part_000`'s second component — renders
`max(1, ceil(totalDuration * fps))` frames at `fps = 30` into the
encoder's virtual file store, then invokes the encoder once, reads the
output back, stores it as the export blob, and deletes the frame files.
The browser/encoder steps that can throw are modelled by success flags in
`ExportEnv`; a failing step jumps to the `catch` block (sets the error
message) and the `finally` block always runs (clears `isExporting`, resets
the phase to idle). -/

inductive ExportPhase
  | idle
  | rendering
  | encoding
deriving DecidableEq, Repr

/-- A produced artifact: the converted MP4, or (in the MediaRecorder
variant's fallback) the raw recorded WebM. -/
inductive Blob
  | mp4 (source : String)
  | webm (source : String)
deriving DecidableEq, Repr

/-- The export-related component state of the frame-stepping variants:
`isExporting`, `exportPhase`, `exportBlob`, `error`.  (Progress reporting
is not modelled; no claim mentions it.) -/
structure ExportState where
  isExporting : Bool
  exportPhase : ExportPhase
  exportBlob : Option Blob
  error : Option String
deriving DecidableEq, Repr

/-- An operation against the encoder's virtual file store, in program
order. -/
inductive FsEvent
  | writeFrame (i : ℕ) (frameTime : ℚ) (fileName : String)
  | execEncode
  | readOutput
  | deleteFrame (fileName : String)
deriving DecidableEq, Repr

/-- Success flags for the fallible steps of the export pipeline:
`loadFFmpeg`, the per-frame `canvas.toBlob` capture, the `ffmpeg.exec`
encoder invocation, and the `ffmpeg.readFile` read-back. -/
structure ExportEnv where
  loadOk : Bool
  frameOk : ℕ → Bool
  encodeOk : Bool
  readOk : Bool

/-- Model of `String.prototype.padStart(n, c)`. -/
def padStart (s : String) (n : ℕ) (c : Char) : String :=
  String.mk (List.replicate (n - s.length) c) ++ s

/-- The zero-padded sequential frame filename
`f${i.toString().padStart(5, '0')}.jpg`. -/
def frameFileName (i : ℕ) : String :=
  "f" ++ padStart (toString i) 5 '0' ++ ".jpg"

/-- The frame count
`const totalFrames = Math.max(1, Math.ceil(totalDuration * fps))` with
`fps = 30`. -/
def totalFramesFor (td : ℚ) : ℕ :=
  (max 1 ⌈td * 30⌉).toNat

/-- The user-facing error message set by the `catch` block of
`handleExport` in `part_000`. -/
def exportErrorMsg : String := "作成中に問題が発生しました。もう一度お試しください。"

/-- The `finally` block: `setIsExporting(false); setExportPhase("idle")`. -/
def finallyIdle (st : ExportState) : ExportState :=
  { st with isExporting := false, exportPhase := ExportPhase.idle }

/-- The rendering loop `for (let i = 0; i < totalFrames; i++)`: render
frame `i` at `frameTime = i / fps`, capture it, and write it under
`frameFileName i`; a failed capture throws, aborting the loop.  Returns
whether the loop completed and the writes it performed, in order. -/
def renderLoop (env : ExportEnv) : ℕ → ℕ → Bool × List FsEvent
  | 0, _ => (true, [])
  | k + 1, i =>
    if env.frameOk i then
      let r := renderLoop env k (i + 1)
      (r.1, FsEvent.writeFrame i ((i : ℚ) / 30) (frameFileName i) :: r.2)
    else
      (false, [])

/-- Function `handleExport` of `part_000` lines 295-361: enter the rendering phase
with a cleared blob and error, render all frames, switch to the encoding
phase, invoke the encoder, read `out.mp4` back as the export blob, delete
the frame files; any throwing step skips to `catch` (error message), and
`finally` always resets `isExporting`/`exportPhase`. -/
def handleExport (env : ExportEnv) (td : ℚ) : ExportState × List FsEvent :=
  let st0 : ExportState :=
    { isExporting := true, exportPhase := ExportPhase.rendering,
      exportBlob := Option.none, error := Option.none }
  let n := totalFramesFor td
  if env.loadOk = false then
    (finallyIdle { st0 with error := some exportErrorMsg }, [])
  else
    match renderLoop env n 0 with
    | (false, evs) =>
      (finallyIdle { st0 with error := some exportErrorMsg }, evs)
    | (true, evs) =>
      let st1 := { st0 with exportPhase := ExportPhase.encoding }
      if env.encodeOk = false then
        (finallyIdle { st1 with error := some exportErrorMsg },
          evs ++ [FsEvent.execEncode])
      else if env.readOk = false then
        (finallyIdle { st1 with error := some exportErrorMsg },
          evs ++ [FsEvent.execEncode, FsEvent.readOutput])
      else
        (finallyIdle { st1 with exportBlob := some (Blob.mp4 "out.mp4") },
          evs ++ [FsEvent.execEncode, FsEvent.readOutput]
            ++ (List.range n).map (fun i => FsEvent.deleteFrame (frameFileName i)))

/-- The write events of a completed rendering loop, frame `j` sampled at
`j / 30` under `frameFileName j`. -/
def frameWrites (n : ℕ) : List FsEvent :=
  (List.range n).map (fun j => FsEvent.writeFrame j ((j : ℚ) / 30) (frameFileName j))

theorem renderLoop_allOk (env : ExportEnv)
    (hok : ∀ i, env.frameOk i = true) :
    ∀ k i, renderLoop env k i
      = (true, (List.range' i k).map
          (fun j => FsEvent.writeFrame j ((j : ℚ) / 30) (frameFileName j))) := by
  intro k
  induction k with
  | zero => intro i; rfl
  | succ k ih =>
    intro i
    rw [renderLoop, if_pos (by rw [hok i])]
    rw [ih (i + 1), List.range'_succ]
    rfl

theorem handleExport_allOk (env : ExportEnv) (td : ℚ)
    (hload : env.loadOk = true) (hframes : ∀ i, env.frameOk i = true)
    (henc : env.encodeOk = true) (hread : env.readOk = true) :
    handleExport env td
      = ({ isExporting := false, exportPhase := ExportPhase.idle,
           exportBlob := some (Blob.mp4 "out.mp4"), error := Option.none },
         frameWrites (totalFramesFor td)
           ++ [FsEvent.execEncode, FsEvent.readOutput]
           ++ (List.range (totalFramesFor td)).map
                (fun i => FsEvent.deleteFrame (frameFileName i))) := by
  unfold handleExport
  rw [hload]
  simp only [Bool.true_eq_false, if_false]
  rw [renderLoop_allOk env hframes (totalFramesFor td) 0,
    ← List.range_eq_range']
  rw [henc, hread]
  simp only [Bool.true_eq_false, if_false]
  rfl

/-- The predicate selecting `writeFrame` events. -/
def isWriteFrame : FsEvent → Bool
  | FsEvent.writeFrame _ _ _ => true
  | _ => false

theorem countP_frameWrites (n : ℕ) :
    (frameWrites n).countP isWriteFrame = n := by
  unfold frameWrites
  rw [List.countP_map]
  have : (isWriteFrame ∘ fun j =>
      FsEvent.writeFrame j ((j : ℚ) / 30) (frameFileName j)) = fun _ => true := by
    funext j; rfl
  rw [this]
  simp [List.countP_true]

/-- An environment in which every pipeline step succeeds. -/
def envAllOk : ExportEnv :=
  { loadOk := true, frameOk := fun _ => true, encodeOk := true, readOk := true }

/-- An environment in which the encoder invocation (`ffmpeg.exec`) fails
and everything else succeeds. -/
def envEncodeFails : ExportEnv :=
  { loadOk := true, frameOk := fun _ => true, encodeOk := false, readOk := true }

/-- Claim C2 (amended): in the frame-stepping export driver
(`handleExport` of `part_000` / `handleMainAction` of `VideoPreview.tsx`),
if the encoder invocation fails then after the handler finishes the phase
is idle, the stored export blob is null, the error message is non-null,
and `isExporting` is cleared — no artifact of any kind is retained.  (The
MediaRecorder conversion variant violates this; see the counterexample.) -/
theorem export_encoder_failure_idle (env : ExportEnv) (td : ℚ)
    (hload : env.loadOk = true) (hframes : ∀ i, env.frameOk i = true)
    (henc : env.encodeOk = false) :
    (handleExport env td).1.exportPhase = ExportPhase.idle ∧
    (handleExport env td).1.exportBlob = Option.none ∧
    (handleExport env td).1.error = some exportErrorMsg ∧
    (handleExport env td).1.isExporting = false := by
  unfold handleExport
  rw [hload]
  simp only [Bool.true_eq_false, if_false]
  rw [renderLoop_allOk env hframes (totalFramesFor td) 0]
  rw [henc]
  simp [finallyIdle]

/-- Witness for `export_encoder_failure_idle` at `envEncodeFails` and a
one-second timeline. -/
theorem export_encoder_failure_idle_witness :
    envEncodeFails.loadOk = true ∧ envEncodeFails.encodeOk = false ∧
    ((handleExport envEncodeFails 1).1.exportPhase = ExportPhase.idle ∧
     (handleExport envEncodeFails 1).1.exportBlob = Option.none ∧
     (handleExport envEncodeFails 1).1.error = some exportErrorMsg ∧
     (handleExport envEncodeFails 1).1.isExporting = false) :=
  ⟨rfl, rfl,
    export_encoder_failure_idle envEncodeFails 1 rfl (fun _ => rfl) rfl⟩

/-- The export-related state of the MediaRecorder variant (first component
of `src/src/components/VideoPreview.tsx`): that variant has an
`isConverting` flag and no error state at all. -/
structure ConvertState where
  isConverting : Bool
  exportBlob : Option Blob
deriving DecidableEq, Repr

/-- The `mediaRecorder.onstop` handler of the first `VideoPreview.tsx`
component (lines 384-423): it converts the recorded WebM to MP4 through
`loadFFmpeg`, `ffmpeg.exec` and `ffmpeg.readFile`; on success it stores
the MP4 as the export blob, but on ANY failure its `catch` block stores
the raw recorded WebM as the export blob instead (lines 415-419), and the
`finally` block clears `isConverting`. -/
def handleExportOnStop (loadOk execOk readOk : Bool) : ConvertState :=
  if loadOk && execOk && readOk then
    { isConverting := false, exportBlob := some (Blob.mp4 "output.mp4") }
  else
    { isConverting := false, exportBlob := some (Blob.webm "recorded chunks") }

/-- Claim C2 counterexample: in the MediaRecorder export path cited by the
claim (`VideoPreview.tsx` lines 415-422), a failing encoder invocation
leaves the un-converted WebM recording retained as the export blob — a
partial artifact, not null — and the variant has no error field to set. -/
theorem export_encoder_failure_retains_webm :
    (handleExportOnStop true false true).exportBlob
      = some (Blob.webm "recorded chunks") ∧
    (handleExportOnStop true false true).exportBlob ≠ Option.none := by
  exact ⟨rfl, by decide⟩

/-- Claim C4 (confirmed): for `totalDuration > 0` the rendering phase
writes exactly `ceil(totalDuration * 30)` still images — frame `i` sampled
at `i / 30` under the zero-padded `f%05d.jpg` name — all before the single
encoder invocation. -/
theorem export_rendering_frame_count (env : ExportEnv) (td : ℚ)
    (htd : 0 < td)
    (hload : env.loadOk = true) (hframes : ∀ i, env.frameOk i = true)
    (henc : env.encodeOk = true) (hread : env.readOk = true) :
    totalFramesFor td = (⌈td * 30⌉).toNat ∧
    (handleExport env td).2
      = (List.range (⌈td * 30⌉).toNat).map
          (fun i => FsEvent.writeFrame i ((i : ℚ) / 30)
            ("f" ++ padStart (toString i) 5 '0' ++ ".jpg"))
        ++ [FsEvent.execEncode, FsEvent.readOutput]
        ++ (List.range (⌈td * 30⌉).toNat).map
            (fun i => FsEvent.deleteFrame (frameFileName i)) ∧
    (handleExport env td).2.countP isWriteFrame = (⌈td * 30⌉).toNat := by
  have hceilpos : (0 : ℤ) < ⌈td * 30⌉ := Int.ceil_pos.mpr (by positivity)
  have hceil : (1 : ℤ) ≤ ⌈td * 30⌉ := by omega
  have hmax : max 1 ⌈td * 30⌉ = ⌈td * 30⌉ := max_eq_right hceil
  have hn : totalFramesFor td = (⌈td * 30⌉).toNat := by
    unfold totalFramesFor; rw [hmax]
  refine ⟨hn, ?_, ?_⟩
  · rw [handleExport_allOk env td hload hframes henc hread]
    rw [hn]
    rfl
  · rw [handleExport_allOk env td hload hframes henc hread]
    simp only [List.countP_append, countP_frameWrites, hn]
    have h1 : List.countP isWriteFrame [FsEvent.execEncode, FsEvent.readOutput] = 0 := rfl
    have h2 : ((List.range (⌈td * 30⌉).toNat).map
        (fun i => FsEvent.deleteFrame (frameFileName i))).countP isWriteFrame = 0 := by
      rw [List.countP_map]
      have : (isWriteFrame ∘ fun i => FsEvent.deleteFrame (frameFileName i))
          = fun _ => false := by funext i; rfl
      rw [this]
      simp [List.countP_false]
    rw [h1, h2]
    omega

/-- Witness for `export_rendering_frame_count`: a 2-second timeline at
30 fps renders exactly 60 stills. -/
theorem export_rendering_frame_count_witness :
    (0 : ℚ) < 2 ∧ (⌈(2 : ℚ) * 30⌉).toNat = 60 ∧
    (totalFramesFor 2 = (⌈(2 : ℚ) * 30⌉).toNat ∧
     (handleExport envAllOk 2).2
       = (List.range (⌈(2 : ℚ) * 30⌉).toNat).map
           (fun i => FsEvent.writeFrame i ((i : ℚ) / 30)
             ("f" ++ padStart (toString i) 5 '0' ++ ".jpg"))
         ++ [FsEvent.execEncode, FsEvent.readOutput]
         ++ (List.range (⌈(2 : ℚ) * 30⌉).toNat).map
             (fun i => FsEvent.deleteFrame (frameFileName i)) ∧
     (handleExport envAllOk 2).2.countP isWriteFrame = (⌈(2 : ℚ) * 30⌉).toNat) :=
  ⟨by norm_num,
   by
    have h : ((2 : ℚ) * 30) = ((60 : ℤ) : ℚ) := by norm_num
    rw [h, Int.ceil_intCast]
    rfl,
   export_rendering_frame_count envAllOk 2 (by norm_num) rfl (fun _ => rfl)
     rfl rfl⟩

/-- Claim C10 (confirmed): the frame count is computed as
`max(1, ceil(totalDuration * fps))`, so the rendering phase always writes
at least one still, and a zero-length timeline (in particular an empty
sequence, whose `totalDuration` is 0) renders exactly one frame. -/
theorem export_min_one_frame (env : ExportEnv) (td : ℚ)
    (hload : env.loadOk = true) (hframes : ∀ i, env.frameOk i = true)
    (henc : env.encodeOk = true) (hread : env.readOk = true) :
    totalFramesFor td = (max 1 ⌈td * 30⌉).toNat ∧
    1 ≤ totalFramesFor td ∧
    (td = 0 → totalFramesFor td = 1) ∧
    (handleExport env td).2.countP isWriteFrame = totalFramesFor td := by
  refine ⟨rfl, ?_, ?_, ?_⟩
  · unfold totalFramesFor
    have h1 : (1 : ℤ) ≤ max 1 ⌈td * 30⌉ := le_max_left _ _
    omega
  · intro h
    subst h
    unfold totalFramesFor
    norm_num
  · rw [handleExport_allOk env td hload hframes henc hread]
    simp only [List.countP_append, countP_frameWrites]
    have h1 : List.countP isWriteFrame [FsEvent.execEncode, FsEvent.readOutput] = 0 := rfl
    have h2 : ((List.range (totalFramesFor td)).map
        (fun i => FsEvent.deleteFrame (frameFileName i))).countP isWriteFrame = 0 := by
      rw [List.countP_map]
      have : (isWriteFrame ∘ fun i => FsEvent.deleteFrame (frameFileName i))
          = fun _ => false := by funext i; rfl
      rw [this]
      simp [List.countP_false]
    rw [h1, h2]
    omega

/-- Witness for `export_min_one_frame` on the zero-length timeline. -/
theorem export_min_one_frame_witness :
    envAllOk.loadOk = true ∧
    (totalFramesFor 0 = (max 1 ⌈(0 : ℚ) * 30⌉).toNat ∧
     1 ≤ totalFramesFor 0 ∧
     ((0 : ℚ) = 0 → totalFramesFor 0 = 1) ∧
     (handleExport envAllOk 0).2.countP isWriteFrame = totalFramesFor 0) :=
  ⟨rfl, export_min_one_frame envAllOk 0 rfl (fun _ => rfl) rfl rfl⟩

/-!
Playback driver.

`animate` of the export-capable variants (`part_000` lines 260-275,
`part_002` lines 295-310, second `VideoPreview.tsx` component lines
847-862): one `requestAnimationFrame` tick.  Timestamps are in
milliseconds; `startTime = 0` means the reference is unset (`if
(!startTimeRef.current) startTimeRef.current = timestamp`). -/

structure PlaybackState where
  isPlaying : Bool
  startTime : ℚ
  currentTime : ℚ
deriving DecidableEq, Repr

/-- The elapsed playback seconds a tick at `timestamp` computes:
`(timestamp - startTimeRef.current) / 1000` after the unset-reference
initialisation. -/
def elapsedAt (st : PlaybackState) (timestamp : ℚ) : ℚ :=
  (timestamp - (if st.startTime = 0 then timestamp else st.startTime)) / 1000

/-- One tick of `animate`: initialise the start reference if unset,
compute the elapsed time, and on `elapsed >= totalDuration` rebase the
reference to the current timestamp and wrap the elapsed time to 0; then
publish the elapsed time as `currentTime` (the frame rendered this tick).
The tick never changes `isPlaying`; only the user controls do. -/
def animate (td : ℚ) (st : PlaybackState) (timestamp : ℚ) : PlaybackState :=
  let start := if st.startTime = 0 then timestamp else st.startTime
  let elapsed := (timestamp - start) / 1000
  if td ≤ elapsed then
    { st with startTime := timestamp, currentTime := 0 }
  else
    { st with startTime := start, currentTime := elapsed }

/-- Claim C6 (confirmed): while playing, a tick whose elapsed time reaches
or exceeds `totalDuration` immediately rebases the start-time reference to
the tick's timestamp and restarts at time 0; and no tick ever transitions
the driver to stopped on its own (`isPlaying` is preserved by every
tick). -/
theorem playback_loops_at_end (td : ℚ) (st : PlaybackState) (timestamp : ℚ)
    (hplay : st.isPlaying = true) :
    (animate td st timestamp).isPlaying = true ∧
    (td ≤ elapsedAt st timestamp →
      (animate td st timestamp).startTime = timestamp ∧
      (animate td st timestamp).currentTime = 0) := by
  unfold animate elapsedAt
  by_cases hwrap : td ≤ (timestamp - (if st.startTime = 0 then timestamp else st.startTime)) / 1000
  · rw [if_pos hwrap]
    exact ⟨hplay, fun _ => ⟨rfl, rfl⟩⟩
  · rw [if_neg hwrap]
    exact ⟨hplay, fun h => absurd h hwrap⟩

/-- Witness for `playback_loops_at_end`: a playing state whose reference
is 1000 ms, ticked at 4000 ms against a 2-second timeline (elapsed 3 s ≥
2 s), loops back to 0. -/
theorem playback_loops_at_end_witness :
    ({ isPlaying := true, startTime := 1000, currentTime := 0 }
        : PlaybackState).isPlaying = true ∧
    ((animate 2 { isPlaying := true, startTime := 1000, currentTime := 0 }
        4000).isPlaying = true ∧
     (2 ≤ elapsedAt { isPlaying := true, startTime := 1000, currentTime := 0 }
          4000 →
       (animate 2 { isPlaying := true, startTime := 1000, currentTime := 0 }
           4000).startTime = 4000 ∧
       (animate 2 { isPlaying := true, startTime := 1000, currentTime := 0 }
           4000).currentTime = 0)) :=
  ⟨rfl, playback_loops_at_end 2
    { isPlaying := true, startTime := 1000, currentTime := 0 } 4000 rfl⟩

/-!
Application state and export-blob invalidation.

The top-level state and its mutation commands are from `App.tsx`
(`handleUpload`, `handleUpdateClip`, `handleRemoveClip`,
`handleReorderClips`, `setTitleSettings`); the invalidation effect
`useEffect(() => { setExportBlob(null); setCurrentTime(0); }, [clips,
titleSettings])` is from the second `VideoPreview.tsx` component (lines
898-901) and `part_000` (lines 810-813).  Every command passes a freshly
built array or object to its state setter, so React re-runs the effect
after every command. -/

structure AppState where
  clips : List VideoClip
  titleSettings : TitleSettings
  exportBlob : Option Blob
  currentTime : ℚ
deriving DecidableEq, Repr

/-- The sequence/title mutation commands of `App.tsx`. -/
inductive AppCommand
  | upload (newClips : List VideoClip)
  | updateClip (id : String) (newStart : ℚ)
  | removeClip (id : String)
  | reorder (newClips : List VideoClip)
  | setTitle (t : TitleSettings)

/-- The state mutation each command performs (`App.tsx` lines 20-59 and
the title-settings setters): append on upload, per-id field update on trim
edit, filter on removal, wholesale replacement on reorder and title
edit. -/
def applyCommand (s : AppState) : AppCommand → AppState
  | AppCommand.upload newClips => { s with clips := s.clips ++ newClips }
  | AppCommand.updateClip id newStart =>
    { s with
      clips := s.clips.map fun c =>
        if c.id = id then { c with startTime := newStart } else c }
  | AppCommand.removeClip id =>
    { s with clips := s.clips.filter (fun c => c.id ≠ id) }
  | AppCommand.reorder newClips => { s with clips := newClips }
  | AppCommand.setTitle t => { s with titleSettings := t }

/-- The invalidation effect of the export-capable variants: on any change
of the `[clips, titleSettings]` dependencies, `setExportBlob(null)` and
`setCurrentTime(0)`. -/
def invalidationEffect (s : AppState) : AppState :=
  { s with exportBlob := Option.none, currentTime := 0 }

/-- One command dispatched through React: the mutation, then the effect
that reacts to the changed dependencies. -/
def dispatch (s : AppState) (cmd : AppCommand) : AppState :=
  invalidationEffect (applyCommand s cmd)

/-- Claim C7 (confirmed): after a successful export (a retained export
blob), every sequence or title-settings command — append, trim edit,
remove, reorder, or title change — leaves the export blob null, forcing a
re-export before any later save/share can use it. -/
theorem export_blob_invalidated (s : AppState) (cmd : AppCommand) (b : Blob)
    (_hblob : s.exportBlob = some b) :
    (dispatch s cmd).exportBlob = Option.none := by
  cases cmd <;> rfl

/-- Witness for `export_blob_invalidated`: removing a clip after a
successful export clears the retained MP4. -/
theorem export_blob_invalidated_witness :
    ({ clips := [clipOne], titleSettings := { text := "", style := TextOverlayStyle.simple },
       exportBlob := some (Blob.mp4 "out.mp4"), currentTime := 0 }
        : AppState).exportBlob = some (Blob.mp4 "out.mp4") ∧
    (dispatch
        { clips := [clipOne], titleSettings := { text := "", style := TextOverlayStyle.simple },
          exportBlob := some (Blob.mp4 "out.mp4"), currentTime := 0 }
        (AppCommand.removeClip "c1")).exportBlob = Option.none :=
  ⟨rfl, export_blob_invalidated _ (AppCommand.removeClip "c1") (Blob.mp4 "out.mp4") rfl⟩

/-!
Media preloader and handle release.

The preload effect of `part_001` (lines 56-104) creates one video element
with an object URL per clip id missing from the id-keyed cache
(`videoElementsRef`), and afterwards revokes the URL of — and evicts —
every cached entry whose id left the sequence (lines 93-103).  When the
updated sequence is empty the effect returns early (line 60-63), before
both passes.  Object-URL creation is 1:1 per id here, modelled as
`"blob:" ++ id`, so counting releases by id counts them by URL; the cache
is an id-keyed association list and a release is recorded as the released
entry's id.

The preload effect of the first `VideoPreview.tsx` component (lines
88-129) creates entries the same way but registers a cleanup closure that
revokes EVERY cached element's URL (lines 125-128); React runs that
closure on each subsequent change of `clips`, and the cache map is never
pruned. -/

def hasId (cache : List (String × String)) (id : String) : Bool :=
  cache.any fun e => e.1 == id

def clipsHaveId (clips : List VideoClip) (id : String) : Bool :=
  clips.any fun c => c.id == id

/-- Number of cache entries keyed by `id`. -/
def countId (cache : List (String × String)) (id : String) : ℕ :=
  (cache.map Prod.fst).count id

/-- The preload pass: `clips.forEach`, creating a fresh handle and object
URL only for ids not yet cached. -/
def preloadAdd : List VideoClip → List (String × String) → List (String × String)
  | [], cache => cache
  | c :: rest, cache =>
    preloadAdd rest
      (if hasId cache c.id then cache else cache ++ [(c.id, "blob:" ++ c.id)])

/-- The removed-id cleanup pass of `part_001` (lines 93-103): every cached
entry whose id is not in the current clips has its URL revoked and is
deleted from the cache.  Returns the kept cache and the released ids. -/
def cleanupPass (clips : List VideoClip) :
    List (String × String) → List (String × String) × List String
  | [] => ([], [])
  | e :: rest =>
    let r := cleanupPass clips rest
    if clipsHaveId clips e.1 then (e :: r.1, r.2) else (r.1, e.1 :: r.2)

/-- One run of the `part_001` preload effect: early return on an empty
sequence, otherwise the preload pass followed by the removed-id cleanup
pass. -/
def preloadEffectP1 (clips : List VideoClip) (cache : List (String × String)) :
    List (String × String) × List String :=
  if clips.isEmpty then (cache, [])
  else cleanupPass clips (preloadAdd clips cache)

/-- A sequence of `part_001` effect runs, one per successive value of
`clips`, accumulating the released ids. -/
def runHistoryP1 : List (List VideoClip) → List (String × String) →
    List (String × String) × List String
  | [], cache => (cache, [])
  | cs :: rest, cache =>
    let r1 := preloadEffectP1 cs cache
    let r2 := runHistoryP1 rest r1.1
    (r2.1, r1.2 ++ r2.2)

theorem clipsHaveId_false_forall {clips : List VideoClip} {id : String}
    (h : clipsHaveId clips id = false) : ∀ c ∈ clips, c.id ≠ id := by
  intro c hc heq
  have : clips.any (fun c => c.id == id) = true :=
    List.any_eq_true.mpr ⟨c, hc, by rw [heq]; exact beq_self_eq_true id⟩
  rw [clipsHaveId] at h
  rw [h] at this
  cases this

theorem countId_append (c1 c2 : List (String × String)) (id : String) :
    countId (c1 ++ c2) id = countId c1 id + countId c2 id := by
  unfold countId
  rw [List.map_append, List.count_append]

theorem preloadAdd_countId (id : String) :
    ∀ (clips : List VideoClip) (cache : List (String × String)),
      clipsHaveId clips id = false →
      countId (preloadAdd clips cache) id = countId cache id := by
  intro clips
  induction clips with
  | nil => intro cache _; rfl
  | cons c rest ih =>
    intro cache h
    have hc : c.id ≠ id := clipsHaveId_false_forall h c (List.mem_cons_self c rest)
    have hrest : clipsHaveId rest id = false := by
      rw [clipsHaveId] at h ⊢
      rw [List.any_cons] at h
      exact (Bool.or_eq_false_iff.mp h).2
    rw [preloadAdd]
    by_cases hhas : hasId cache c.id
    · rw [if_pos hhas]
      exact ih cache hrest
    · rw [if_neg hhas]
      rw [ih _ hrest, countId_append]
      have hzero : countId [(c.id, "blob:" ++ c.id)] id = 0 := by
        unfold countId
        rw [List.count_eq_zero]
        intro hmem
        rw [List.map_cons, List.map_nil, List.mem_singleton] at hmem
        exact hc hmem.symm
      rw [hzero]
      omega

theorem countId_cons (e : String × String) (rest : List (String × String))
    (id : String) :
    countId (e :: rest) id = countId rest id + (if e.1 = id then 1 else 0) := by
  by_cases h : e.1 = id
  · simp [countId, List.count_cons, h]
  · simp [countId, List.count_cons, beq_iff_eq, h, Ne.symm h]

theorem cleanupPass_spec (clips : List VideoClip) (id : String)
    (h : clipsHaveId clips id = false) :
    ∀ cache : List (String × String),
      (cleanupPass clips cache).2.count id = countId cache id ∧
      countId (cleanupPass clips cache).1 id = 0 := by
  intro cache
  induction cache with
  | nil => exact ⟨rfl, rfl⟩
  | cons e rest ih =>
    rw [cleanupPass]
    by_cases hkeep : clipsHaveId clips e.1 = true
    · have hne : e.1 ≠ id := by
        intro heq
        rw [heq, h] at hkeep
        cases hkeep
      rw [if_pos hkeep]
      refine ⟨?_, ?_⟩
      · rw [countId_cons, if_neg hne]
        simpa using ih.1
      · rw [countId_cons, if_neg hne]
        simpa using ih.2
    · rw [if_neg hkeep]
      refine ⟨?_, ih.2⟩
      rw [countId_cons]
      have : List.count id (e.1 :: (cleanupPass clips rest).2)
          = List.count id (cleanupPass clips rest).2
            + (if e.1 = id then 1 else 0) := by
        by_cases heq : e.1 = id
        · simp [List.count_cons, heq]
        · simp [List.count_cons, beq_iff_eq, heq, Ne.symm heq]
      rw [this, ih.1]

/-- If the cache holds no entry for `id` and `id` is not in the clips,
one `part_001` effect run releases `id` zero times and leaves it out of
the cache (whether or not the sequence is empty). -/
theorem preloadEffectP1_absent (clips : List VideoClip) (id : String)
    (cache : List (String × String))
    (hcache : countId cache id = 0)
    (hclips : clipsHaveId clips id = false) :
    (preloadEffectP1 clips cache).2.count id = 0 ∧
    countId (preloadEffectP1 clips cache).1 id = 0 := by
  unfold preloadEffectP1
  by_cases hempty : clips.isEmpty
  · rw [if_pos hempty]
    exact ⟨rfl, hcache⟩
  · rw [if_neg hempty]
    have hadd := preloadAdd_countId id clips cache hclips
    have := cleanupPass_spec clips id hclips (preloadAdd clips cache)
    refine ⟨?_, this.2⟩
    rw [this.1, hadd, hcache]

theorem runHistoryP1_absent (id : String) :
    ∀ (history : List (List VideoClip)) (cache : List (String × String)),
      countId cache id = 0 →
      (∀ cs ∈ history, clipsHaveId cs id = false) →
      (runHistoryP1 history cache).2.count id = 0 := by
  intro history
  induction history with
  | nil => intro cache _ _; rfl
  | cons cs rest ih =>
    intro cache hcache hall
    rw [runHistoryP1]
    have h1 := preloadEffectP1_absent cs id cache hcache
      (hall cs (List.mem_cons_self cs rest))
    have h2 := ih (preloadEffectP1 cs cache).1 h1.2
      (fun cs2 hcs2 => hall cs2 (List.mem_cons_of_mem _ hcs2))
    simp only [List.count_append]
    rw [h1.1, h2]

/-- Claim C5 (amended): in the `part_001` preload effect, removing a clip
id while the remaining sequence is non-empty releases its handle exactly
once — the entry is revoked once in that run and evicted from the cache —
and no later run releases it again as long as the id is not re-added,
regardless of any preload that was in flight (preloads only create
entries, never release them).  (The `part_001` effect defers the release
when the sequence shrinks to empty, and the `VideoPreview.tsx` variant
never evicts and re-revokes on every later change — see the
counterexample.) -/
theorem preload_release_exactly_once (cache : List (String × String))
    (id : String) (clips1 : List VideoClip) (history : List (List VideoClip))
    (hcount : countId cache id = 1)
    (hrem : clipsHaveId clips1 id = false)
    (hne : clips1.isEmpty = false)
    (hhist : ∀ cs ∈ history, clipsHaveId cs id = false) :
    (preloadEffectP1 clips1 cache).2.count id = 1 ∧
    countId (preloadEffectP1 clips1 cache).1 id = 0 ∧
    (runHistoryP1 history (preloadEffectP1 clips1 cache).1).2.count id = 0 := by
  have hrun : (preloadEffectP1 clips1 cache).2.count id = 1 ∧
      countId (preloadEffectP1 clips1 cache).1 id = 0 := by
    unfold preloadEffectP1
    rw [hne]
    simp only [Bool.false_eq_true, if_false]
    have hadd := preloadAdd_countId id clips1 cache hrem
    have hclean := cleanupPass_spec clips1 id hrem (preloadAdd clips1 cache)
    exact ⟨by rw [hclean.1, hadd, hcount], hclean.2⟩
  exact ⟨hrun.1, hrun.2,
    runHistoryP1_absent id history (preloadEffectP1 clips1 cache).1 hrun.2 hhist⟩

/-- Witness for `preload_release_exactly_once`: the cache holds a handle
for `"c1"`; the sequence becomes `[clipTwo]` and later shrinks to empty —
the `"c1"` handle is released exactly once. -/
theorem preload_release_exactly_once_witness :
    countId [("c1", "blob:c1")] "c1" = 1 ∧
    clipsHaveId [clipTwo] "c1" = false ∧
    ([clipTwo] : List VideoClip).isEmpty = false ∧
    (∀ cs ∈ [[clipTwo], ([] : List VideoClip)], clipsHaveId cs "c1" = false) ∧
    ((preloadEffectP1 [clipTwo] [("c1", "blob:c1")]).2.count "c1" = 1 ∧
     countId (preloadEffectP1 [clipTwo] [("c1", "blob:c1")]).1 "c1" = 0 ∧
     (runHistoryP1 [[clipTwo], []]
        (preloadEffectP1 [clipTwo] [("c1", "blob:c1")]).1).2.count "c1" = 0) :=
  ⟨by decide, by decide, by decide, by decide,
    preload_release_exactly_once [("c1", "blob:c1")] "c1" [clipTwo]
      [[clipTwo], []] (by decide) (by decide) (by decide) (by decide)⟩

/-- The preload-effect state of the first `VideoPreview.tsx` component:
the id-keyed cache plus whether the previous effect run registered a
cleanup closure (it does not when the sequence was empty, lines 92-95). -/
structure MainPreload where
  cache : List (String × String)
  hasCleanup : Bool
deriving DecidableEq, Repr

/-- One `clips` change in the first `VideoPreview.tsx` component: React
first runs the previously registered cleanup closure — which revokes the
URL of EVERY cached element (lines 125-128) — then the effect body adds
missing entries; nothing is ever deleted from the cache. -/
def mainPreloadRun (st : MainPreload) (clips : List VideoClip) :
    MainPreload × List String :=
  let revoked := if st.hasCleanup then st.cache.map Prod.fst else []
  if clips.isEmpty then
    ({ cache := st.cache, hasCleanup := false }, revoked)
  else
    ({ cache := preloadAdd clips st.cache, hasCleanup := true }, revoked)

def mainRunHistory : List (List VideoClip) → MainPreload →
    MainPreload × List String
  | [], st => (st, [])
  | cs :: rest, st =>
    let r1 := mainPreloadRun st cs
    let r2 := mainRunHistory rest r1.1
    (r2.1, r1.2 ++ r2.2)

/-- Claim C5 counterexample: in the `VideoPreview.tsx` preload effect,
after the history `[clipOne]`, `[]`, `[clipTwo]`, `[clipTwo, clipTiny]`
(add `c1`, remove it, then two further sequence changes), the removed
clip `c1`'s URL has been revoked twice — not once — and its handle is
still in the cache, never evicted. -/
theorem preload_release_twice_never_evicted :
    (mainRunHistory [[clipOne], [], [clipTwo], [clipTwo, clipTiny]]
        { cache := [], hasCleanup := false }).2.count "c1" = 2 ∧
    hasId (mainRunHistory [[clipOne], [], [clipTwo], [clipTwo, clipTiny]]
        { cache := [], hasCleanup := false }).1.cache "c1" = true ∧
    clipsHaveId [clipTwo, clipTiny] "c1" = false := by decide

end OneSecVlog

